import Mathlib

/-!
Verification of the issue-agent service (claude-tunnel): a shallow embedding
of its task queue, state store, processor scheduling, webhook signature
verification, ingress handlers, agent runner and worktree manager, with the
specified properties proved or refuted against the embedded code.

Conventions of the embedding:
* TypeScript strings become `String` (or `List Char` where the code works
  character-by-character); raw request bodies and secrets become byte lists
  (`List Nat`, each element kept below 256).
* JavaScript `Date` values are identified with their ISO-8601 string
  rendering, which is exactly how they cross the persistence boundary.
* Fallible external calls (provider API, git, child processes) are passed in
  as explicit outcome fields of an environment record; a thrown exception is
  an `Except.error` carrying the message the code would observe.
* The JS `Map` is an insertion-ordered association list; `Map.set` replaces
  in place, `Map.delete` filters.
-/

namespace IssueAgent

/-- Provider tag, from `types.ts` (`IssueProvider`). -/
inductive IssueProvider where
  | linear
  | github
deriving DecidableEq, Repr

/-- Task status, from `types.ts` (`AgentTaskStatus`). -/
inductive AgentTaskStatus where
  | queued
  | running
  | completed
  | failed
deriving DecidableEq, Repr

/-- A unit of work, from `types.ts` (`AgentTask`).  `startedAt` is the
optional `Date`, modelled as its ISO string. -/
structure AgentTask where
  issueId : String
  identifier : String
  repo : String
  worktreePath : String
  status : AgentTaskStatus
  startedAt : Option String
  title : String
  provider : IssueProvider
deriving DecidableEq, Repr

/-- Entry of the pending queue, from `types.ts` (`QueueItem`). -/
structure QueueItem where
  task : AgentTask
  addedAt : String
deriving DecidableEq, Repr

/-- The two guarded in-memory structures of `services/queue.ts`:
`pendingQueue` and the `runningAgents` Map keyed by issue id. -/
structure QueueState where
  pendingQueue : List QueueItem
  runningAgents : List (String × AgentTask)
deriving DecidableEq, Repr

/-- `Map.has`. -/
def mapHas (m : List (String × AgentTask)) (k : String) : Bool :=
  m.any (fun p => p.1 == k)

/-- `Map.set`: replace in place when the key is present (JS Maps keep the
original insertion position), otherwise append. -/
def mapSet (m : List (String × AgentTask)) (k : String) (v : AgentTask) :
    List (String × AgentTask) :=
  if mapHas m k then m.map (fun p => if p.1 == k then (k, v) else p)
  else m ++ [(k, v)]

/-- `Map.delete`. -/
def mapDelete (m : List (String × AgentTask)) (k : String) :
    List (String × AgentTask) :=
  m.filter (fun p => p.1 != k)

/-- `queue.isQueued`. -/
def isQueued (st : QueueState) (issueId : String) : Bool :=
  st.pendingQueue.any (fun item => item.task.issueId == issueId)

/-- `queue.isRunning`. -/
def isRunning (st : QueueState) (issueId : String) : Bool :=
  mapHas st.runningAgents issueId

/-- `queue.addTask`: no-op when the issue is already queued or running,
otherwise append to the tail with status `queued`.  `now` is the `Date`
stamped into the queue item. -/
def addTask (st : QueueState) (now : String) (task : AgentTask) : QueueState :=
  if isQueued st task.issueId || isRunning st task.issueId then st
  else
    { st with
      pendingQueue :=
        st.pendingQueue ++ [⟨{ task with status := .queued }, now⟩] }

/-- `queue.getNext`: pop the head of the pending queue. -/
def getNext (st : QueueState) : Option AgentTask × QueueState :=
  match st.pendingQueue with
  | [] => (none, st)
  | item :: rest => (some item.task, { st with pendingQueue := rest })

/-- `queue.size`. -/
def queueSize (st : QueueState) : Nat :=
  st.pendingQueue.length

/-- `queue.canStartNew`: running count strictly below `maxConcurrentAgents`. -/
def canStartNew (maxConcurrentAgents : Nat) (st : QueueState) : Bool :=
  st.runningAgents.length < maxConcurrentAgents

/-- `queue.markRunning`: stamp the start time and move into the running map
with status `running`. -/
def markRunning (st : QueueState) (now : String) (task : AgentTask) :
    QueueState :=
  { st with
    runningAgents :=
      mapSet st.runningAgents task.issueId
        { task with status := .running, startedAt := some now } }

/-- `queue.markComplete` (and `markFailed`, which differs only in logging):
delete from the running map. -/
def markComplete (st : QueueState) (issueId : String) : QueueState :=
  { st with runningAgents := mapDelete st.runningAgents issueId }

/-- `queue.getRunningTasks`: snapshot of the running map values. -/
def getRunningTasks (st : QueueState) : List AgentTask :=
  st.runningAgents.map (fun p => p.2)

/-- `queue.restoreRunningTasks`: `Map.set` each restored task by issue id. -/
def restoreRunningTasks (st : QueueState) (tasks : List AgentTask) :
    QueueState :=
  { st with
    runningAgents :=
      tasks.foldl (fun m t => mapSet m t.issueId t) st.runningAgents }

/-- The fresh queue (module initialisation in `queue.ts`). -/
def emptyQueue : QueueState := ⟨[], []⟩

/-- Issue ids across the pending queue and the running map combined. -/
def combinedIds (st : QueueState) : List String :=
  st.pendingQueue.map (fun item => item.task.issueId)
    ++ st.runningAgents.map (fun p => p.1)

/-! ### HMAC-SHA256 and the webhook signature verifiers

`createHmac("sha256", secret)` from `node:crypto` is embedded as a full
SHA-256/HMAC implementation over byte lists (`Nat` below 256, overflow made
explicit with `% 2^32`); it was checked against the FIPS-180 and RFC 4231
test vectors.  `Buffer.from(s, "hex")` keeps Node's semantics: decoding
stops at the first invalid pair (never throws), accepts both letter cases,
and drops a dangling odd character.  `timingSafeEqual` throws when lengths
differ and the caller catches that into `false`; extensionally this is a
length-checked equality. -/

/-- Truncate to a 32-bit word. -/
def w32 (x : Nat) : Nat := x % 4294967296

/-- 32-bit right rotation. -/
def rotr32 (n x : Nat) : Nat := w32 ((x >>> n) ||| (x <<< (32 - n)))

/-- The eight SHA-256 working variables. -/
structure Sha256State where
  a : Nat
  b : Nat
  c : Nat
  d : Nat
  e : Nat
  f : Nat
  g : Nat
  h : Nat
deriving DecidableEq, Repr

/-- SHA-256 initial hash value (FIPS 180-4), in decimal. -/
def shaInit : Sha256State :=
  ⟨1779033703, 3144134277, 1013904242, 2773480762,
   1359893119, 2600822924, 528734635, 1541459225⟩

/-- SHA-256 round constants (FIPS 180-4), in decimal. -/
def shaK : List Nat :=
  [1116352408, 1899447441, 3049323471, 3921009573,
   961987163, 1508970993, 2453635748, 2870763221,
   3624381080, 310598401, 607225278, 1426881987,
   1925078388, 2162078206, 2614888103, 3248222580,
   3835390401, 4022224774, 264347078, 604807628,
   770255983, 1249150122, 1555081692, 1996064986,
   2554220882, 2821834349, 2952996808, 3210313671,
   3336571891, 3584528711, 113926993, 338241895,
   666307205, 773529912, 1294757372, 1396182291,
   1695183700, 1986661051, 2177026350, 2456956037,
   2730485921, 2820302411, 3259730800, 3345764771,
   3516065817, 3600352804, 4094571909, 275423344,
   430227734, 506948616, 659060556, 883997877,
   958139571, 1322822218, 1537002063, 1747873779,
   1955562222, 2024104815, 2227730452, 2361852424,
   2428436474, 2756734187, 3204031479, 3329325298]

/-- SHA-256 padding: append `0x80`, zeros to 56 mod 64, then the bit length
as eight big-endian bytes. -/
def padMessage (msg : List Nat) : List Nat :=
  let z := (119 - msg.length % 64) % 64
  let bitLen := msg.length * 8
  msg ++ 0x80 :: List.replicate z 0 ++
    [(bitLen >>> 56) % 256, (bitLen >>> 48) % 256, (bitLen >>> 40) % 256,
     (bitLen >>> 32) % 256, (bitLen >>> 24) % 256, (bitLen >>> 16) % 256,
     (bitLen >>> 8) % 256, bitLen % 256]

/-- Big-endian bytes to 32-bit words. -/
def toWords : List Nat → List Nat
  | b0 :: b1 :: b2 :: b3 :: rest =>
    (((b0 * 256 + b1) * 256 + b2) * 256 + b3) :: toWords rest
  | _ => []

/-- Split a byte list into 64-byte blocks. -/
def chunks64 : List Nat → List (List Nat)
  | [] => []
  | b :: rest => ((b :: rest).take 64) :: chunks64 ((b :: rest).drop 64)
termination_by l => l.length
decreasing_by simp only [List.length_drop, List.length_cons]; omega

/-- SHA-256 σ₀. -/
def smallSigma0 (x : Nat) : Nat := rotr32 7 x ^^^ rotr32 18 x ^^^ (x >>> 3)

/-- SHA-256 σ₁. -/
def smallSigma1 (x : Nat) : Nat := rotr32 17 x ^^^ rotr32 19 x ^^^ (x >>> 10)

/-- SHA-256 Σ₀. -/
def bigSigma0 (x : Nat) : Nat := rotr32 2 x ^^^ rotr32 13 x ^^^ rotr32 22 x

/-- SHA-256 Σ₁. -/
def bigSigma1 (x : Nat) : Nat := rotr32 6 x ^^^ rotr32 11 x ^^^ rotr32 25 x

/-- Message-schedule extension of the first 16 words to 64. -/
def extendWords (ws : List Nat) : List Nat :=
  (List.range 48).foldl
    (fun acc _ =>
      let n := acc.length
      acc ++ [w32 (smallSigma1 (acc.getD (n - 2) 0) + acc.getD (n - 7) 0 +
                   smallSigma0 (acc.getD (n - 15) 0) + acc.getD (n - 16) 0)])
    ws

/-- One SHA-256 round on the working variables, given `(Kₜ, Wₜ)`. -/
def roundStep (st : Sha256State) (kw : Nat × Nat) : Sha256State :=
  let t1 := w32 (st.h + bigSigma1 st.e +
    ((st.e &&& st.f) ^^^ ((st.e ^^^ 0xffffffff) &&& st.g)) + kw.1 + kw.2)
  let t2 := w32 (bigSigma0 st.a +
    ((st.a &&& st.b) ^^^ (st.a &&& st.c) ^^^ (st.b &&& st.c)))
  ⟨w32 (t1 + t2), st.a, st.b, st.c, w32 (st.d + t1), st.e, st.f, st.g⟩

/-- Compression of one 64-byte block. -/
def compressBlock (st : Sha256State) (block : List Nat) : Sha256State :=
  let ws := extendWords (toWords block)
  let r := (shaK.zip ws).foldl roundStep st
  ⟨w32 (st.a + r.a), w32 (st.b + r.b), w32 (st.c + r.c), w32 (st.d + r.d),
   w32 (st.e + r.e), w32 (st.f + r.f), w32 (st.g + r.g), w32 (st.h + r.h)⟩

/-- Big-endian bytes of a 32-bit word. -/
def wordBytes (w : Nat) : List Nat :=
  [(w >>> 24) % 256, (w >>> 16) % 256, (w >>> 8) % 256, w % 256]

/-- The 32 digest bytes of a final SHA-256 state. -/
def sha256Digest (st : Sha256State) : List Nat :=
  wordBytes st.a ++ wordBytes st.b ++ wordBytes st.c ++ wordBytes st.d ++
  wordBytes st.e ++ wordBytes st.f ++ wordBytes st.g ++ wordBytes st.h

/-- SHA-256 of a byte list. -/
def sha256 (msg : List Nat) : List Nat :=
  sha256Digest ((chunks64 (padMessage msg)).foldl compressBlock shaInit)

/-- HMAC key normalised to the 64-byte block size. -/
def hmacKeyBlock (key : List Nat) : List Nat :=
  let k0 := if 64 < key.length then sha256 key else key
  k0 ++ List.replicate (64 - k0.length) 0

/-- HMAC-SHA256 (RFC 2104), as computed by `createHmac("sha256", secret)`. -/
def hmacSha256 (key msg : List Nat) : List Nat :=
  sha256 (((hmacKeyBlock key).map (fun b => b ^^^ 0x5c)) ++
    sha256 (((hmacKeyBlock key).map (fun b => b ^^^ 0x36)) ++ msg))

/-- Lower-case hex digit of a value below 16. -/
def hexDigitChar (n : Nat) : Char :=
  if n < 10 then Char.ofNat (48 + n) else Char.ofNat (87 + n)

/-- Two lower-case hex digits of a byte. -/
def byteHexChars (b : Nat) : List Char :=
  [hexDigitChar (b / 16), hexDigitChar (b % 16)]

/-- `digest("hex")`: lower-case hex rendering of a byte list. -/
def toHexChars (bs : List Nat) : List Char :=
  (bs.map byteHexChars).flatten

/-- Value of a hex digit, either letter case (Node accepts both). -/
def hexDigitVal (c : Char) : Option Nat :=
  if 48 ≤ c.toNat ∧ c.toNat ≤ 57 then some (c.toNat - 48)
  else if 97 ≤ c.toNat ∧ c.toNat ≤ 102 then some (c.toNat - 87)
  else if 65 ≤ c.toNat ∧ c.toNat ≤ 70 then some (c.toNat - 55)
  else none

/-- `Buffer.from(s, "hex")`: decode pairs left to right, stopping silently at
the first invalid pair or dangling character. -/
def bufferFromHex : List Char → List Nat
  | c1 :: c2 :: rest =>
    match hexDigitVal c1, hexDigitVal c2 with
    | some hi, some lo => (16 * hi + lo) :: bufferFromHex rest
    | _, _ => []
  | _ => []

/-- `crypto.timingSafeEqual` under the `try`/`catch` of
`github/webhook.ts`: a length mismatch throws and is caught into `false`,
otherwise the buffers are compared.  Timing is outside this model; the
comparison is extensional. -/
def timingSafeEqualBytes (a b : List Nat) : Bool :=
  a.length == b.length && a == b

/-- `validateSignature` of the Linear webhook (`part_003`): reject a missing
header, otherwise compare the header string with the hex HMAC-SHA256 of the
raw body under the secret. -/
def linearValidateSignature (body : List Nat) (signature : Option (List Char))
    (secret : List Nat) : Bool :=
  match signature with
  | none => false
  | some s => s == toHexChars (hmacSha256 secret body)

/-- `validateSignature` of `github/webhook.ts`: reject a missing header or
one without the `sha256=` tag, otherwise hex-decode the rest and compare it
with the decoded expected digest via `timingSafeEqual`. -/
def githubValidateSignature (body : List Nat) (signature : Option (List Char))
    (secret : List Nat) : Bool :=
  match signature with
  | none => false
  | some s =>
    "sha256=".data.isPrefixOf s &&
      timingSafeEqualBytes (bufferFromHex (s.drop 7))
        (bufferFromHex (toHexChars (hmacSha256 secret body)))

/-! ### Generic issue model (`types.ts`) -/

deriving instance DecidableEq for Except

/-- The GitHub metadata bag fields consumed by `getBranchName`
(`github/client.ts`). -/
structure GhMeta where
  owner : String
  repo : String
  number : Nat
deriving DecidableEq, Repr

/-- Generic label (`types.ts`, `IssueLabel`). -/
structure IssueLabel where
  id : String
  name : String
deriving DecidableEq, Repr

/-- Generic comment (`types.ts`, `IssueComment`). -/
structure IssueComment where
  id : String
  body : String
  createdAt : String
  userName : Option String
deriving DecidableEq, Repr

/-- Parent issue reference (`types.ts`, `ParentIssue`). -/
structure ParentIssue where
  id : String
  identifier : String
  title : String
  description : Option String
deriving DecidableEq, Repr

/-- Provider-independent issue (`types.ts`, `Issue`).  Of the opaque
metadata bag, only the owner/repo/number triple read by the GitHub
branch-name derivation is modelled. -/
structure Issue where
  id : String
  identifier : String
  title : String
  description : Option String
  labels : List IssueLabel
  comments : List IssueComment
  parent : Option ParentIssue
  repository : Option String
  ghMeta : Option GhMeta
deriving DecidableEq, Repr

/-- `client.getBranchName`: the Linear client returns the issue identifier;
the GitHub client renders `owner-repo-number` from the metadata bag (a
missing bag would surface as JS `undefined` coercion). -/
def getBranchName : IssueProvider → Issue → String
  | .linear, issue => issue.identifier
  | .github, issue =>
    match issue.ghMeta with
    | some m => m.owner ++ "-" ++ m.repo ++ "-" ++ toString m.number
    | none => "undefined-undefined-undefined"

/-- `client.getRepository` (both providers): `issue.repository ?? null`. -/
def getRepository (issue : Issue) : Option String :=
  issue.repository

/-- ASCII `toLowerCase`, the fragment of the JS method exercised by label
names; written over the character list so that it evaluates in the
kernel. -/
def asciiLowerChar (c : Char) : Char :=
  if 65 ≤ c.toNat ∧ c.toNat ≤ 90 then Char.ofNat (c.toNat + 32) else c

/-- ASCII lower-casing of a string. -/
def asciiLower (s : String) : String :=
  ⟨s.data.map asciiLowerChar⟩

/-! ### Agent runner (`services/agent-runner.ts`)

`runAgent` is embedded as a pure function of the task and an environment
record carrying the outcome of every external interaction, in program
order: issue fetch, worktree creation, the two best-effort provider calls,
the child process result, the dirty-tree check, commit, push, PR creation,
the completion comment and review transition, and the failure comment sent
by `handleFailure`.  `Except.error` is a thrown JS exception carrying the
message the code observes.  Alongside the returned `AgentResult` the
embedding collects the provider side effects that actually happened, so
that claims about comments being posted or statuses transitioned are
statable. -/

/-- Result of `spawnClaude`. -/
structure ClaudeResult where
  exitCode : Nat
  stdout : String
  stderr : String
  timedOut : Bool
deriving DecidableEq, Repr

/-- `types.ts` `AgentResult`. -/
structure AgentResult where
  success : Bool
  error : Option String
  branchName : Option String
  prUrl : Option String
  summary : Option String
  hasChanges : Bool
deriving DecidableEq, Repr

/-- Observable provider side effects of one `runAgent` invocation. -/
inductive ProviderEffect where
  | statusInProgress
  | startComment
  | completionComment
  | statusReview
  | failureComment
deriving DecidableEq, Repr

/-- Environment of one `runAgent` run: configured timeout plus the outcome
of each external call, in program order. -/
structure RunEnv where
  agentTimeout : Nat
  issue : Option Issue
  createWorktreeR : Except String Unit
  statusInProgressR : Except String Unit
  startCommentR : Except String Unit
  claude : ClaudeResult
  hasChangesR : Except String Bool
  commitR : Except String Unit
  pushR : Except String Unit
  prUrl : Option String
  completionCommentR : Except String Unit
  statusReviewR : Except String Unit
  failureCommentR : Except String Unit
deriving DecidableEq, Repr

/-- The failure `AgentResult` shape returned on every error path. -/
def failResult (msg : String) : AgentResult :=
  ⟨false, some msg, none, none, none, false⟩

/-- `handleFailure`: try to post the failure comment; its own failure is
only logged. -/
def handleFailureEffects (env : RunEnv) : List ProviderEffect :=
  match env.failureCommentR with
  | .ok _ => [.failureComment]
  | .error _ => []

/-- The effects of the two best-effort calls before the agent spawns
(status to in-progress, starting comment), each individually guarded by
`try`/`catch` in the source. -/
def preSpawnEffects (env : RunEnv) : List ProviderEffect :=
  (match env.statusInProgressR with
   | .ok _ => [ProviderEffect.statusInProgress]
   | .error _ => []) ++
  (match env.startCommentR with
   | .ok _ => [ProviderEffect.startComment]
   | .error _ => [])

/-- `runAgent`: the per-task orchestration of `agent-runner.ts`, lines
90–226.  The outer `try`/`catch` converts any thrown error into a failure
result after `handleFailure`; the timeout and non-zero-exit branches return
failure results directly.  Note that in the no-changes branch the
completion comment and review transition are *not* guarded, while in the
has-changes branch they share one `try`/`catch` whose failure is only
logged. -/
def runAgent (env : RunEnv) (task : AgentTask) :
    AgentResult × List ProviderEffect :=
  match env.issue with
  | none =>
    (failResult ("Issue (" ++ task.identifier ++ ") not found"),
     handleFailureEffects env)
  | some issue =>
    let branchName := getBranchName task.provider issue
    match env.createWorktreeR with
    | .error e => (failResult e, handleFailureEffects env)
    | .ok _ =>
      let effs := preSpawnEffects env
      if env.claude.timedOut then
        (failResult ("Agent timed out after (" ++
           toString (env.agentTimeout / 60000) ++ ") minutes"),
         effs ++ handleFailureEffects env)
      else if env.claude.exitCode != 0 then
        (failResult ("Claude exited with code (" ++
           toString env.claude.exitCode ++ "): " ++
           (if env.claude.stderr != "" then env.claude.stderr
            else env.claude.stdout)),
         effs ++ handleFailureEffects env)
      else
        match env.hasChangesR with
        | .error e => (failResult e, effs ++ handleFailureEffects env)
        | .ok false =>
          match env.completionCommentR with
          | .error e => (failResult e, effs ++ handleFailureEffects env)
          | .ok _ =>
            match env.statusReviewR with
            | .error e =>
              (failResult e,
               (effs ++ [ProviderEffect.completionComment]) ++
                 handleFailureEffects env)
            | .ok _ =>
              (⟨true, none, some branchName, none,
                 some ("No code changes were made"), false⟩,
               effs ++ [ProviderEffect.completionComment,
                 ProviderEffect.statusReview])
        | .ok true =>
          match env.commitR with
          | .error e => (failResult e, effs ++ handleFailureEffects env)
          | .ok _ =>
            match env.pushR with
            | .error e => (failResult e, effs ++ handleFailureEffects env)
            | .ok _ =>
              let prUrl := env.prUrl
              let finalizeEffects :=
                match env.completionCommentR with
                | .error _ => ([] : List ProviderEffect)
                | .ok _ =>
                  match env.statusReviewR with
                  | .error _ => [ProviderEffect.completionComment]
                  | .ok _ => [ProviderEffect.completionComment,
                      ProviderEffect.statusReview]
              (⟨true, none, some branchName, prUrl,
                 some ("Created branch (" ++ branchName ++
                   (match prUrl with
                    | some u => ") and PR (" ++ u
                    | none => ")")), true⟩,
               effs ++ finalizeEffects)

/-! ### Ingress handlers

The Linear webhook route (`part_003`, `linearWebhook.post`) and the
multi-provider retry route (`routes/retry.ts`).  Request-scoped external
results (JSON parse, label lookups, issue fetch) are fields of an
environment record; `path.resolve(worktreesPath, branch)` is modelled as
slash concatenation.  Each outcome records the response, the HTTP status,
the queue after the call, and whether `triggerProcessing` was invoked
before responding. -/

/-- `updatedFrom` of a Linear webhook payload (`types.ts`). -/
structure WebhookUpdatedFrom where
  labelIds : Option (List String)
deriving DecidableEq, Repr

/-- `data` of a Linear webhook payload (`types.ts`). -/
structure WebhookData where
  id : String
  labelIds : Option (List String)
deriving DecidableEq, Repr

/-- Linear webhook payload (`types.ts`, `WebhookPayload`). -/
structure WebhookPayload where
  action : String
  type : String
  data : WebhookData
  updatedFrom : Option WebhookUpdatedFrom
deriving DecidableEq, Repr

/-- `types.ts`, `WebhookFilterResult`. -/
structure WebhookFilterResult where
  shouldProcess : Bool
  issueId : Option String
  addedLabelIds : Option (List String)
deriving DecidableEq, Repr

/-- `shouldProcess` of the Linear webhook: Issue update events whose label
diff resolves, via the client's label lookup, to a name case-insensitively
equal to the trigger label. -/
def shouldProcessLinear (getLabel : String → Option IssueLabel)
    (triggerLabel : String) (payload : WebhookPayload) :
    WebhookFilterResult :=
  if payload.type != "Issue" then ⟨false, none, none⟩
  else if payload.action != "update" then ⟨false, none, none⟩
  else
    match payload.updatedFrom with
    | none => ⟨false, none, none⟩
    | some uf =>
      match uf.labelIds with
      | none => ⟨false, none, none⟩
      | some previousLabelIds =>
        let currentLabelIds := payload.data.labelIds.getD []
        let addedLabelIds :=
          currentLabelIds.filter (fun lid => !previousLabelIds.contains lid)
        if addedLabelIds.isEmpty then ⟨false, none, none⟩
        else if addedLabelIds.any (fun lid =>
            match getLabel lid with
            | some l => asciiLower l.name == asciiLower triggerLabel
            | none => false) then
          ⟨true, some payload.data.id, some addedLabelIds⟩
        else ⟨false, none, none⟩

/-- Request environment of one `POST /webhook/linear` call. -/
structure LinearWebhookEnv where
  linearApiKey : Option String
  linearWebhookSecret : Option (List Nat)
  linearTriggerLabel : String
  worktreesPath : String
  rawBody : List Nat
  signatureHeader : Option (List Char)
  parsedPayload : Option WebhookPayload
  getLabel : String → Option IssueLabel
  getIssueR : Option Issue

/-- Responses of the Linear webhook route. -/
inductive WebhookResp where
  | notConfigured
  | invalidSignature
  | invalidJson
  | ignored
  | issueNotFound
  | repoNotSpecified
  | alreadyProcessing
  | enqueued (issueId : String)
deriving DecidableEq, Repr

/-- Observable outcome of a webhook request: response, HTTP status, queue
after the handler, and whether the processor was signalled. -/
structure HandlerOutcome where
  resp : WebhookResp
  status : Nat
  queueAfter : QueueState
  triggered : Bool
deriving DecidableEq, Repr

/-- `linearWebhook.post` (`part_003`, lines 345–435): configuration check,
signature check on the raw body, JSON parse, filter, issue fetch,
repository resolution, duplicate check, then task insertion.  The handler
returns without invoking `triggerProcessing`. -/
def linearWebhookPost (env : LinearWebhookEnv) (now : String)
    (q : QueueState) : HandlerOutcome :=
  match env.linearApiKey, env.linearWebhookSecret with
  | some _, some secret =>
    if !(linearValidateSignature env.rawBody env.signatureHeader secret) then
      ⟨.invalidSignature, 401, q, false⟩
    else
      match env.parsedPayload with
      | none => ⟨.invalidJson, 400, q, false⟩
      | some payload =>
        let fr := shouldProcessLinear env.getLabel env.linearTriggerLabel
          payload
        if !fr.shouldProcess || fr.issueId.isNone then ⟨.ignored, 200, q, false⟩
        else
          match env.getIssueR with
          | none => ⟨.issueNotFound, 400, q, false⟩
          | some issue =>
            match getRepository issue with
            | none => ⟨.repoNotSpecified, 400, q, false⟩
            | some repo =>
              if isQueued q issue.id || isRunning q issue.id then
                ⟨.alreadyProcessing, 200, q, false⟩
              else
                let branchName := getBranchName .linear issue
                let task : AgentTask :=
                  { issueId := issue.id, identifier := issue.identifier,
                    repo := repo,
                    worktreePath := env.worktreesPath ++ "/" ++ branchName,
                    status := .queued, startedAt := none,
                    title := issue.title, provider := .linear }
                ⟨.enqueued issue.identifier, 200, addTask q now task, false⟩
  | _, _ => ⟨.notConfigured, 503, q, false⟩

/-- Request environment of one `POST /retry/:issueId` call. -/
structure RetryEnv where
  linearConfigured : Bool
  githubConfigured : Bool
  worktreesPath : String
  getIssueR : Option Issue
deriving Repr

/-- `isProviderConfigured` as seen by the retry route. -/
def isProviderConfiguredFlag (env : RetryEnv) : IssueProvider → Bool
  | .linear => env.linearConfigured
  | .github => env.githubConfigured

/-- Responses of the retry route. -/
inductive RetryResp where
  | providerNotConfigured
  | alreadyQueued
  | alreadyRunning
  | issueNotFound
  | repoNotSpecified
  | queuedOk (issueId : String) (provider : IssueProvider)
deriving DecidableEq, Repr

/-- Observable outcome of a retry request; `clientProvider` records the
provider passed to `getClient`, if that point is reached. -/
structure RetryOutcome where
  resp : RetryResp
  status : Nat
  queueAfter : QueueState
  triggered : Bool
  clientProvider : Option IssueProvider
deriving DecidableEq, Repr

/-- `retry.post` (`routes/retry.ts`, lines 18–86): default the provider to
`linear`, require it configured, reject duplicates with 409, fetch the
issue, resolve the repository, insert the task, then invoke
`triggerProcessing` before responding. -/
def retryPost (env : RetryEnv) (issueId : String)
    (providerParam : Option IssueProvider) (now : String) (q : QueueState) :
    RetryOutcome :=
  let provider := providerParam.getD .linear
  if !(isProviderConfiguredFlag env provider) then
    ⟨.providerNotConfigured, 400, q, false, none⟩
  else if isQueued q issueId then ⟨.alreadyQueued, 409, q, false, none⟩
  else if isRunning q issueId then ⟨.alreadyRunning, 409, q, false, none⟩
  else
    match env.getIssueR with
    | none => ⟨.issueNotFound, 404, q, false, some provider⟩
    | some issue =>
      match getRepository issue with
      | none => ⟨.repoNotSpecified, 400, q, false, some provider⟩
      | some repo =>
        let branchName := getBranchName provider issue
        let task : AgentTask :=
          { issueId := issue.id, identifier := issue.identifier,
            repo := repo,
            worktreePath := env.worktreesPath ++ "/" ++ branchName,
            status := .queued, startedAt := none, title := issue.title,
            provider := provider }
        ⟨.queuedOk issue.identifier provider, 200, addTask q now task, true,
         some provider⟩

/-! ### Worktree creation (`services/git.ts`) -/

/-- Outcome of one spawned command (`runCommand`). -/
structure CommandResult where
  exitCode : Nat
  stdout : String
  stderr : String
deriving DecidableEq, Repr

/-- Environment of one `createWorktree` call: whether the worktree path
already exists on disk, and the results the two possible git invocations
would produce. -/
structure WorktreeEnv where
  pathOnDisk : Bool
  firstAttempt : CommandResult
  retryAttempt : CommandResult
deriving DecidableEq, Repr

/-- JS `String.includes` over character lists. -/
def listHasInfix (needle : List Char) : List Char → Bool
  | [] => needle.isEmpty
  | c :: rest => needle.isPrefixOf (c :: rest) || listHasInfix needle rest

/-- JS `String.includes`. -/
def strContains (hay needle : String) : Bool :=
  listHasInfix needle.data hay.data

/-- JS `a || b` on strings: `a` unless it is empty. -/
def orElseNonEmpty (a b : String) : String :=
  if a != "" then a else b

/-- `createWorktree` (`git.ts`, lines 36–78): reuse an existing path
without running git; otherwise `git worktree add <path> -b <branch>` from
the repo; when that fails with an `already exists` stderr, retry without
`-b` against the existing branch; surface any other failure as a thrown
error.  The second component lists the git invocations performed, each with
its working directory. -/
def createWorktree (env : WorktreeEnv) (repoPath worktreePath branchName :
    String) : Except String Unit × List (String × List String) :=
  if env.pathOnDisk then (.ok (), [])
  else
    let cmd1 := (repoPath, ["git", "worktree", "add", worktreePath, "-b",
      branchName])
    if env.firstAttempt.exitCode != 0 then
      if strContains env.firstAttempt.stderr ("already exists") then
        let cmd2 := (repoPath, ["git", "worktree", "add", worktreePath,
          branchName])
        if env.retryAttempt.exitCode != 0 then
          (.error ("Failed to create worktree: " ++
             orElseNonEmpty env.retryAttempt.stderr env.retryAttempt.stdout),
           [cmd1, cmd2])
        else (.ok (), [cmd1, cmd2])
      else
        (.error ("Failed to create worktree: " ++
           orElseNonEmpty env.firstAttempt.stderr env.firstAttempt.stdout),
         [cmd1])
    else (.ok (), [cmd1])

/-! ### State store (`services/state.ts`)

The state file is modelled at the JSON-tree level: `JSON.stringify` and
`JSON.parse` are the identity pair between trees and file text, and a file
whose text is not JSON is the `unparseable` case (the parse throws, the
`catch` returns `[]`).  A `Date` is its ISO string, so `new Date(s)` on a
round-tripped value is the identity.  Decoding is the typed reading the
code performs on the parsed tree; shapes the encoder never produces are
outside the round-trip claims. -/

/-- JSON trees. -/
inductive Json where
  | jstr (s : String)
  | jarr (xs : List Json)
  | jobj (fields : List (String × Json))

/-- `AgentTaskStatus` as serialized. -/
def statusToString : AgentTaskStatus → String
  | .queued => "queued"
  | .running => "running"
  | .completed => "completed"
  | .failed => "failed"

/-- Parse a serialized status. -/
def statusFromString : String → Option AgentTaskStatus
  | "queued" => some .queued
  | "running" => some .running
  | "completed" => some .completed
  | "failed" => some .failed
  | _ => none

/-- `IssueProvider` as serialized. -/
def providerToString : IssueProvider → String
  | .linear => "linear"
  | .github => "github"

/-- Parse a serialized provider. -/
def providerFromString : String → Option IssueProvider
  | "linear" => some .linear
  | "github" => some .github
  | _ => none

/-- `new Date(s)` on a canonical ISO string, rendered back as ISO: the
identity in this model. -/
def newDate (s : String) : String := s

/-- `JSON.stringify` of one task: fields in property-creation order, the
optional `startedAt` (added last by the `markRunning` spread) omitted when
absent, a `Date` rendered as its ISO string. -/
def encodeTask (t : AgentTask) : Json :=
  .jobj ([("issueId", .jstr t.issueId), ("identifier", .jstr t.identifier),
    ("repo", .jstr t.repo), ("worktreePath", .jstr t.worktreePath),
    ("status", .jstr (statusToString t.status)),
    ("title", .jstr t.title),
    ("provider", .jstr (providerToString t.provider))]
    ++ (match t.startedAt with
        | some d => [("startedAt", .jstr d)]
        | none => []))

/-- Typed reading of one parsed task, including the `new Date(startedAt)`
conversion done by `loadState`. -/
def decodeTask : Json → Option AgentTask
  | .jobj [("issueId", .jstr i), ("identifier", .jstr idf),
      ("repo", .jstr r), ("worktreePath", .jstr w), ("status", .jstr st),
      ("title", .jstr ti), ("provider", .jstr pv)] =>
    match statusFromString st, providerFromString pv with
    | some s, some p => some ⟨i, idf, r, w, s, none, ti, p⟩
    | _, _ => none
  | .jobj [("issueId", .jstr i), ("identifier", .jstr idf),
      ("repo", .jstr r), ("worktreePath", .jstr w), ("status", .jstr st),
      ("title", .jstr ti), ("provider", .jstr pv),
      ("startedAt", .jstr d)] =>
    match statusFromString st, providerFromString pv with
    | some s, some p => some ⟨i, idf, r, w, s, some (newDate d), ti, p⟩
    | _, _ => none
  | _ => none

/-- Typed reading of the task array. -/
def decodeTasks : List Json → Option (List AgentTask)
  | [] => some []
  | j :: rest =>
    match decodeTask j, decodeTasks rest with
    | some t, some ts => some (t :: ts)
    | _, _ => none

/-- `JSON.stringify` of the `PersistedState` object literal. -/
def encodeState (ts : List AgentTask) (savedAt : String) : Json :=
  .jobj [("runningAgents", .jarr (ts.map encodeTask)),
    ("savedAt", .jstr savedAt)]

/-- The state file: absent, unparseable text, or a JSON tree. -/
inductive StateFile where
  | absent
  | unparseable
  | content (j : Json)

/-- `saveState`: serialize `(runningAgents, savedAt)` and atomically
replace the file (write to the sibling temp path, then rename — the
functional result is the new content). -/
def saveStateFile (ts : List AgentTask) (now : String) : StateFile :=
  .content (encodeState ts now)

/-- `loadState`: an absent file or a parse failure yields `[]`; otherwise
read `state.runningAgents` and convert each `startedAt` back to a date. -/
def loadStateFile : StateFile → List AgentTask
  | .absent => []
  | .unparseable => []
  | .content j =>
    match j with
    | .jobj (("runningAgents", .jarr items) :: _) =>
      match decodeTasks items with
      | some ts => ts
      | none => []
    | _ => []

/-! ### The system transition relation (processor + recovery)

The scheduler of `processor.ts` and the recovery of `server.ts`, over the
queue plus the persisted running-set snapshot.  Admission may happen any
time (HTTP is concurrent); a dispatch step is `processNext` up to its
`saveState` (guarded by `canStartNew` and a non-empty queue); a finish step
is the `markComplete`/`markFailed` plus `saveState` when `runAgent`
returns; a crash wipes memory, after which `initialize` restores the loaded
snapshot into the running map as-is (or nothing, when the file is absent or
corrupt).  `saveState` failures are log-only, so each persisting step
carries a flag for whether the write succeeded.  The configuration
(`maxConcurrentAgents`) is fixed for the lifetime of the system, across
restarts. -/

/-- Queue plus persisted snapshot (the `runningAgents` list of
`state.json`). -/
structure SysState where
  queue : QueueState
  stateFile : List AgentTask
deriving DecidableEq, Repr

/-- One transition of the system. -/
inductive SysStep (maxAgents : Nat) : SysState → SysState → Prop where
  | admitTask (s : SysState) (now : String) (task : AgentTask) :
      SysStep maxAgents s ⟨addTask s.queue now task, s.stateFile⟩
  | dispatch (s : SysState) (now : String) (task : AgentTask)
      (q' : QueueState) (saveOk : Bool) :
      canStartNew maxAgents s.queue = true →
      getNext s.queue = (some task, q') →
      SysStep maxAgents s
        ⟨markRunning q' now task,
         if saveOk then getRunningTasks (markRunning q' now task)
         else s.stateFile⟩
  | finish (s : SysState) (issueId : String) (saveOk : Bool) :
      SysStep maxAgents s
        ⟨markComplete s.queue issueId,
         if saveOk then getRunningTasks (markComplete s.queue issueId)
         else s.stateFile⟩
  | crashRestore (s : SysState) :
      SysStep maxAgents s
        ⟨restoreRunningTasks emptyQueue s.stateFile, s.stateFile⟩
  | crashEmpty (s : SysState) :
      SysStep maxAgents s ⟨emptyQueue, s.stateFile⟩

/-- States reachable from a fresh boot. -/
inductive SysReachable (maxAgents : Nat) : SysState → Prop where
  | init : SysReachable maxAgents ⟨emptyQueue, []⟩
  | step (s s' : SysState) : SysReachable maxAgents s →
      SysStep maxAgents s s' → SysReachable maxAgents s'

/-- Drain the queue with successive `getNext` calls, spending one unit of
fuel per call. -/
def drainFuel : Nat → QueueState → List AgentTask
  | 0, _ => []
  | n + 1, st =>
    match getNext st with
    | (none, _) => []
    | (some t, st') => t :: drainFuel n st'

/-- All tasks the queue yields, in `getNext` order. -/
def drain (st : QueueState) : List AgentTask :=
  drainFuel (queueSize st) st

/-! ### Concrete fixtures used to evaluate the embedded code -/

/-- A concrete issue for runner scenarios. -/
def cIssueRun : Issue :=
  ⟨"iss-1", "ENG-9", "Fix crash", none, [], [], none, some ("my-proj"), none⟩

/-- A concrete running task for runner scenarios. -/
def cTaskRun : AgentTask :=
  ⟨"iss-1", "ENG-9", "my-proj", "/wt/ENG-9", .running, some ("2026-01-01"),
   "Fix crash", .linear⟩

/-- Runner environment of a successful no-changes run whose completion
comment fails (the provider rejects `addComment`); everything else
succeeds. -/
def cEnvNoChangesCommentFail : RunEnv :=
  { agentTimeout := 1800000, issue := some cIssueRun,
    createWorktreeR := .ok (), statusInProgressR := .ok (),
    startCommentR := .ok (), claude := ⟨0, "done", "", false⟩,
    hasChangesR := .ok false, commitR := .ok (), pushR := .ok (),
    prUrl := none, completionCommentR := .error ("addComment: 500"),
    statusReviewR := .ok (), failureCommentR := .ok () }

/-- The same environment with changes present: the completion comment
fails identically, but here the code guards it. -/
def cEnvChangesCommentFail : RunEnv :=
  { cEnvNoChangesCommentFail with hasChangesR := .ok true }

/-- Runner environment of a timed-out run at the default 30-minute
budget. -/
def cEnvTimedOut : RunEnv :=
  { agentTimeout := 1800000, issue := some cIssueRun,
    createWorktreeR := .ok (), statusInProgressR := .ok (),
    startCommentR := .ok (), claude := ⟨0, "", "partial output", true⟩,
    hasChangesR := .ok false, commitR := .ok (), pushR := .ok (),
    prUrl := none, completionCommentR := .ok (),
    statusReviewR := .ok (), failureCommentR := .ok () }

/-- Label lookup of the webhook scenario: one label id resolving to the
trigger label. -/
def cLabelLookup : String → Option IssueLabel :=
  fun lid => if lid == "L1" then some ⟨"L1", "ai-attempt"⟩ else none

/-- The secret bytes of the webhook scenario. -/
def cSecret : List Nat := [115, 101, 99]

/-- The raw body bytes of the webhook scenario. -/
def cRawBody : List Nat := [123, 125]

/-- A fully admitting Linear webhook request: configured provider, valid
signature (the header is exactly the expected hex digest), a label-added
Issue update resolving to the trigger label, a fetched issue with a
repository, and an empty queue. -/
def cWebhookEnv : LinearWebhookEnv :=
  { linearApiKey := some ("lin_api_k"), linearWebhookSecret := some cSecret,
    linearTriggerLabel := "ai-attempt", worktreesPath := "/wt",
    rawBody := cRawBody,
    signatureHeader := some (toHexChars (hmacSha256 cSecret cRawBody)),
    parsedPayload := some ⟨"update", "Issue", ⟨"iss-7", some ["L1"]⟩,
      some ⟨some []⟩⟩,
    getLabel := cLabelLookup,
    getIssueR := some ⟨"iss-7", "ENG-7", "Fix crash", none, [], [], none,
      some ("my-proj"), none⟩ }

/-- Whether a retry response is the admitted (`queued`) one. -/
def isQueuedOkResp : RetryResp → Bool
  | .queuedOk _ _ => true
  | _ => false

/-- A retry request environment with both providers configured and the
issue present upstream. -/
def cRetryEnv : RetryEnv :=
  ⟨true, true, "/wt", some ⟨"iss-7", "ENG-7", "Fix crash", none, [], [],
    none, some ("my-proj"), none⟩⟩

/-- A retry request environment with only GitHub configured. -/
def cRetryEnvGhOnly : RetryEnv :=
  ⟨false, true, "/wt", some ⟨"iss-7", "ENG-7", "Fix crash", none, [], [],
    none, some ("my-proj"), none⟩⟩

/-! ## Theorems -/

/-- A missing queue entry, element by element. -/
theorem isQueued_false_iff (st : QueueState) (i : String) :
    isQueued st i = false ↔
      ∀ item ∈ st.pendingQueue, item.task.issueId ≠ i := by
  simp [isQueued, List.any_eq_false]

/-- A missing running entry, element by element. -/
theorem isRunning_false_iff (st : QueueState) (i : String) :
    isRunning st i = false ↔ ∀ p ∈ st.runningAgents, p.1 ≠ i := by
  simp [isRunning, mapHas, List.any_eq_false]

/-- `addTask` on a duplicate id leaves the state unchanged. -/
theorem addTask_dup {st : QueueState} {now : String} {task : AgentTask}
    (h : isQueued st task.issueId = true ∨ isRunning st task.issueId = true) :
    addTask st now task = st := by
  rcases h with h | h <;> simp [addTask, h]

/-- `addTask` on a fresh id appends at the tail with status `queued`. -/
theorem addTask_fresh {st : QueueState} {now : String} {task : AgentTask}
    (hq : isQueued st task.issueId = false)
    (hr : isRunning st task.issueId = false) :
    addTask st now task =
      { st with pendingQueue := st.pendingQueue ++
          [⟨{ task with status := .queued }, now⟩] } := by
  simp [addTask, hq, hr]

/-- `addTask` never touches the running map. -/
theorem addTask_runningAgents (st : QueueState) (now : String)
    (task : AgentTask) :
    (addTask st now task).runningAgents = st.runningAgents := by
  unfold addTask
  split <;> rfl

/-- `addTask` preserves distinctness of the combined issue ids. -/
theorem combinedIds_addTask_nodup (st : QueueState) (now : String)
    (t : AgentTask) (h : (combinedIds st).Nodup) :
    (combinedIds (addTask st now t)).Nodup := by
  cases hq : isQueued st t.issueId with
  | true => rw [addTask_dup (Or.inl hq)]; exact h
  | false =>
    cases hr : isRunning st t.issueId with
    | true => rw [addTask_dup (Or.inr hr)]; exact h
    | false =>
      rw [addTask_fresh hq hr]
      have hqm : t.issueId ∉
          st.pendingQueue.map (fun item => item.task.issueId) := by
        intro hmem
        rcases List.mem_map.mp hmem with ⟨item, hitem, heq⟩
        exact ((isQueued_false_iff st t.issueId).mp hq item hitem) heq
      have hrm : t.issueId ∉ st.runningAgents.map (fun p => p.1) := by
        intro hmem
        rcases List.mem_map.mp hmem with ⟨p, hp, heq⟩
        exact ((isRunning_false_iff st t.issueId).mp hr p hp) heq
      have hstep : combinedIds
          { st with pendingQueue := st.pendingQueue ++
              [⟨{ t with status := .queued }, now⟩] }
          = st.pendingQueue.map (fun item => item.task.issueId) ++
              t.issueId :: st.runningAgents.map (fun p => p.1) := by
        simp [combinedIds]
      rw [hstep]
      refine (List.Perm.nodup_iff List.perm_middle).mpr ?_
      refine List.nodup_cons.mpr ⟨?_, h⟩
      intro hmem
      rcases List.mem_append.mp hmem with hmem | hmem
      · exact hqm hmem
      · exact hrm hmem

/-- Any sequence of admissions preserves distinctness of the combined
issue ids. -/
theorem combinedIds_foldl_addTask_nodup
    (admits : List (String × AgentTask)) (st : QueueState)
    (h : (combinedIds st).Nodup) :
    (combinedIds
      (admits.foldl (fun s p => addTask s p.1 p.2) st)).Nodup := by
  induction admits generalizing st with
  | nil => exact h
  | cons a rest ih =>
    exact ih _ (combinedIds_addTask_nodup _ _ _ h)

/-- C2: duplicate admission is blocked inside the queue.  `add(task)` is a
no-op exactly when the issue id is already queued or running, otherwise it
appends the task at the tail with status `queued`; consequently any
sequence of admissions keeps the issue ids of the pending queue and the
running map combined free of duplicates. -/
theorem addTask_duplicate_admission :
    (∀ (st : QueueState) (now : String) (task : AgentTask),
      (isQueued st task.issueId = true ∨ isRunning st task.issueId = true) →
        addTask st now task = st)
    ∧ (∀ (st : QueueState) (now : String) (task : AgentTask),
        isQueued st task.issueId = false →
        isRunning st task.issueId = false →
        addTask st now task =
          { st with pendingQueue := st.pendingQueue ++
              [⟨{ task with status := .queued }, now⟩] })
    ∧ (∀ st : QueueState, (combinedIds st).Nodup →
        ∀ admits : List (String × AgentTask),
          (combinedIds
            (admits.foldl (fun s p => addTask s p.1 p.2) st)).Nodup) := by
  refine ⟨?_, ?_, ?_⟩
  · intro st now task h
    exact addTask_dup h
  · intro st now task hq hr
    exact addTask_fresh hq hr
  · intro st h admits
    exact combinedIds_foldl_addTask_nodup admits st h

/-- Spot check of C2 on concrete states: re-admitting a queued id is a
no-op, and a two-admission run from the empty queue keeps ids distinct. -/
theorem addTask_duplicate_admission_witness :
    addTask
        ⟨[⟨⟨"id1", "ENG-1", "r", "w", .queued, none, "t", .linear⟩, "d0"⟩],
         []⟩
        "d1" ⟨"id1", "ENG-1", "r2", "w2", .queued, none, "t2", .linear⟩
      = ⟨[⟨⟨"id1", "ENG-1", "r", "w", .queued, none, "t", .linear⟩, "d0"⟩],
         []⟩
    ∧ (combinedIds
        (([("d1", ⟨"id2", "ENG-2", "r", "w", .queued, none, "t", .linear⟩),
           ("d2", ⟨"id3", "ENG-3", "r", "w", .queued, none, "t", .github⟩)] :
          List (String × AgentTask)).foldl
            (fun s p => addTask s p.1 p.2) emptyQueue)).Nodup := by
  constructor
  · exact addTask_duplicate_admission.1 _ _ _ (Or.inl (by decide))
  · exact addTask_duplicate_admission.2.2 emptyQueue (by decide) _

/-- Draining with the exact fuel returns the pending tasks in order. -/
theorem drainFuel_eq (n : Nat) :
    ∀ st : QueueState, st.pendingQueue.length = n →
      drainFuel n st = st.pendingQueue.map (fun item => item.task) := by
  induction n with
  | zero =>
    intro st h
    cases hp : st.pendingQueue with
    | nil => simp [drainFuel, hp]
    | cons a l => rw [hp] at h; simp at h
  | succ n ih =>
    intro st h
    cases hp : st.pendingQueue with
    | nil => rw [hp] at h; simp at h
    | cons item rest =>
      have hnext : getNext st =
          (some item.task, { st with pendingQueue := rest }) := by
        unfold getNext
        rw [hp]
      have hlen : ({ st with pendingQueue := rest } :
          QueueState).pendingQueue.length = n := by
        rw [hp] at h
        simpa using h
      rw [drainFuel, hnext]
      show item.task :: drainFuel n { st with pendingQueue := rest }
        = (item :: rest).map (fun item => item.task)
      rw [ih _ hlen]
      rfl

/-- C7: the queue is FIFO.  Admitting tasks with pairwise-distinct issue
ids into the empty queue and then repeatedly calling `getNext` returns
exactly the admitted tasks, in insertion order (each stamped `queued`);
`getNext` on an empty pending queue returns `none`. -/
theorem queue_fifo_order :
    (∀ (now : String) (ts : List AgentTask),
      (ts.map (fun t => t.issueId)).Nodup →
      drain (ts.foldl (fun s t => addTask s now t) emptyQueue)
        = ts.map (fun t => { t with status := AgentTaskStatus.queued }))
    ∧ (∀ st : QueueState, st.pendingQueue = [] → (getNext st).1 = none) := by
  constructor
  · intro now ts hnodup
    have hmain : ∀ (us : List AgentTask) (st : QueueState),
        (∀ u ∈ us, isQueued st u.issueId = false ∧
          isRunning st u.issueId = false) →
        (us.map (fun t => t.issueId)).Nodup →
        (us.foldl (fun s t => addTask s now t) st) =
          { st with pendingQueue := st.pendingQueue ++
              us.map (fun t => ⟨{ t with status := .queued }, now⟩) } := by
      intro us
      induction us with
      | nil => intro st _ _; simp
      | cons t rest ih =>
        intro st hfresh hnd
        have ht := hfresh t (List.mem_cons_self t rest)
        have hne : ∀ u ∈ rest, u.issueId ≠ t.issueId := by
          intro u hu hequ
          apply (List.nodup_cons.mp hnd).1
          show t.issueId ∈ List.map (fun t => t.issueId) rest
          rw [← hequ]
          exact List.mem_map_of_mem (fun t => t.issueId) hu
        rw [List.foldl_cons, addTask_fresh ht.1 ht.2]
        rw [ih _ ?_ (List.nodup_cons.mp hnd).2]
        · simp
        · intro u hu
          constructor
          · rw [isQueued_false_iff]
            intro item hitem
            simp only [List.mem_append, List.mem_singleton] at hitem
            rcases hitem with hitem | hitem
            · exact (isQueued_false_iff st u.issueId).mp
                (hfresh u (List.mem_cons_of_mem t hu)).1 item hitem
            · rw [hitem]
              intro hequ
              exact hne u hu (by simpa using hequ.symm)
          · exact (hfresh u (List.mem_cons_of_mem t hu)).2
    rw [hmain ts emptyQueue (fun t _ => ⟨rfl, rfl⟩) hnodup]
    unfold drain queueSize
    rw [drainFuel_eq _ _ rfl]
    simp only [emptyQueue, List.map_map, List.map_nil, List.nil_append]
    rfl
  · intro st h
    unfold getNext
    rw [h]

/-- Spot check of C7: two concrete admissions drain in insertion order,
and `getNext` on the empty queue yields `none`. -/
theorem queue_fifo_order_witness :
    drain (([⟨"a", "A-1", "r", "w", .queued, none, "t", .linear⟩,
             ⟨"b", "B-2", "r", "w", .completed, none, "t", .github⟩] :
        List AgentTask).foldl (fun s t => addTask s ("now") t) emptyQueue)
      = ([⟨"a", "A-1", "r", "w", .queued, none, "t", .linear⟩,
          ⟨"b", "B-2", "r", "w", .completed, none, "t", .github⟩] :
        List AgentTask).map
          (fun t => { t with status := AgentTaskStatus.queued })
    ∧ (getNext emptyQueue).1 = none := by
  constructor
  · exact queue_fifo_order.1 ("now") _ (by decide)
  · exact queue_fifo_order.2 emptyQueue rfl

/-- Every byte rendered from a 32-bit word is below 256. -/
theorem mem_wordBytes_lt {b w : Nat} (h : b ∈ wordBytes w) : b < 256 := by
  simp only [wordBytes, List.mem_cons, List.not_mem_nil, or_false] at h
  rcases h with h | h | h | h <;> omega

/-- Every byte of a SHA-256 digest is below 256. -/
theorem mem_sha256Digest_lt {b : Nat} {st : Sha256State}
    (h : b ∈ sha256Digest st) : b < 256 := by
  simp only [sha256Digest, List.mem_append] at h
  rcases h with (((((((h | h) | h) | h) | h) | h) | h) | h) <;>
    exact mem_wordBytes_lt h

/-- Every byte of `sha256` output is below 256. -/
theorem mem_sha256_lt {b : Nat} {msg : List Nat} (h : b ∈ sha256 msg) :
    b < 256 := by
  simp only [sha256] at h
  exact mem_sha256Digest_lt h

/-- Every byte of an HMAC-SHA256 digest is below 256. -/
theorem mem_hmacSha256_lt {b : Nat} {key msg : List Nat}
    (h : b ∈ hmacSha256 key msg) : b < 256 := by
  simp only [hmacSha256] at h
  exact mem_sha256_lt h

/-- Hex encoding and decoding agree digit by digit. -/
theorem hexDigitVal_hexDigitChar {n : Nat} (h : n < 16) :
    hexDigitVal (hexDigitChar n) = some n := by
  interval_cases n <;> decide

/-- Node hex decoding inverts lower-case hex encoding of genuine bytes. -/
theorem bufferFromHex_toHexChars {bs : List Nat} (h : ∀ b ∈ bs, b < 256) :
    bufferFromHex (toHexChars bs) = bs := by
  induction bs with
  | nil => rfl
  | cons b rest ih =>
    have hb : b < 256 := h b (List.mem_cons_self b rest)
    have h1 : b / 16 < 16 := by omega
    have h2 : b % 16 < 16 := by omega
    have hrw : toHexChars (b :: rest)
        = hexDigitChar (b / 16) :: hexDigitChar (b % 16) :: toHexChars rest := by
      simp [toHexChars, byteHexChars]
    rw [hrw]
    simp only [bufferFromHex, hexDigitVal_hexDigitChar h1,
      hexDigitVal_hexDigitChar h2]
    rw [ih (fun x hx => h x (List.mem_cons_of_mem b hx))]
    congr 1
    omega

/-- The caught `timingSafeEqual` accepts exactly equal byte lists. -/
theorem timingSafeEqualBytes_iff (a b : List Nat) :
    timingSafeEqualBytes a b = true ↔ a = b := by
  simp only [timingSafeEqualBytes, Bool.and_eq_true, beq_iff_eq]
  exact ⟨fun h => h.2, fun h => ⟨by rw [h], h⟩⟩

/-- C1: webhook signature verification is total and exact for both
providers.  The Linear verifier accepts exactly a present header equal to
the hex HMAC-SHA256 of the raw body under the secret; the GitHub verifier
accepts exactly a present header of the form `sha256=` followed by
characters whose Node hex decoding equals the digest bytes, the comparison
being the (extensionally modelled) timing-safe equality.  Absence, format
error or mismatch yield `false`, which the handlers turn into HTTP 401. -/
theorem webhook_signature_verification_exact
    (body secret : List Nat) (sig : Option (List Char)) :
    (linearValidateSignature body sig secret = true ↔
      sig = some (toHexChars (hmacSha256 secret body)))
    ∧ (githubValidateSignature body sig secret = true ↔
      ∃ rest : List Char, sig = some ("sha256=".data ++ rest) ∧
        bufferFromHex rest = hmacSha256 secret body) := by
  constructor
  · cases sig with
    | none => simp [linearValidateSignature]
    | some s => simp [linearValidateSignature]
  · cases sig with
    | none => simp [githubValidateSignature]
    | some s =>
      simp only [githubValidateSignature, Bool.and_eq_true,
        Option.some.injEq]
      constructor
      · rintro ⟨hp, ht⟩
        obtain ⟨rest, hrest⟩ := List.isPrefixOf_iff_prefix.mp hp
        rw [timingSafeEqualBytes_iff] at ht
        have hdrop : s.drop 7 = rest := by
          rw [← hrest]
          exact List.drop_left ("sha256=").data rest
        refine ⟨rest, hrest.symm, ?_⟩
        rw [hdrop] at ht
        rw [ht, bufferFromHex_toHexChars (fun b hb => mem_hmacSha256_lt hb)]
      · rintro ⟨rest, hs, hbuf⟩
        subst hs
        refine ⟨List.isPrefixOf_iff_prefix.mpr ⟨rest, rfl⟩, ?_⟩
        rw [timingSafeEqualBytes_iff]
        have hdrop : ("sha256=".data ++ rest).drop 7 = rest :=
          List.drop_left ("sha256=").data rest
        rw [hdrop, hbuf,
          bufferFromHex_toHexChars (fun b hb => mem_hmacSha256_lt hb)]

/-- `Map.set` grows the map by at most one entry. -/
theorem length_mapSet (m : List (String × AgentTask)) (k : String)
    (v : AgentTask) : (mapSet m k v).length ≤ m.length + 1 := by
  unfold mapSet
  split
  · simp
  · simp

/-- Re-inserting a task list entry by entry grows the map by at most its
length. -/
theorem length_foldl_mapSet (tasks : List AgentTask)
    (m : List (String × AgentTask)) :
    (tasks.foldl (fun acc t => mapSet acc t.issueId t) m).length ≤
      m.length + tasks.length := by
  induction tasks generalizing m with
  | nil => simp
  | cons t rest ih =>
    calc ((t :: rest).foldl (fun acc u => mapSet acc u.issueId u) m).length
        = (rest.foldl (fun acc u => mapSet acc u.issueId u)
            (mapSet m t.issueId t)).length := by rw [List.foldl_cons]
      _ ≤ (mapSet m t.issueId t).length + rest.length := ih _
      _ ≤ m.length + 1 + rest.length := by
          have := length_mapSet m t.issueId t
          omega
      _ = m.length + (t :: rest).length := by
          simp only [List.length_cons]
          omega

/-- `getNext` never touches the running map. -/
theorem getNext_runningAgents (st : QueueState) :
    ((getNext st).2).runningAgents = st.runningAgents := by
  rcases st with ⟨pending, running⟩
  cases pending <;> rfl

/-- Inductive invariant of the system: both the running map and the
persisted snapshot stay within the concurrency bound. -/
theorem sysInv (maxAgents : Nat) (s : SysState)
    (h : SysReachable maxAgents s) :
    s.queue.runningAgents.length ≤ maxAgents ∧
      s.stateFile.length ≤ maxAgents := by
  induction h with
  | init => exact ⟨by simp [emptyQueue], by simp⟩
  | step s s' hreach hstep ih =>
    cases hstep with
    | admitTask now task =>
      refine ⟨?_, ih.2⟩
      show (addTask s.queue now task).runningAgents.length ≤ maxAgents
      rw [addTask_runningAgents]
      exact ih.1
    | dispatch now task q' saveOk hcan hnext =>
      have hq' : q'.runningAgents = s.queue.runningAgents := by
        have hg := getNext_runningAgents s.queue
        rw [hnext] at hg
        exact hg
      have hlt : s.queue.runningAgents.length < maxAgents := by
        simpa [canStartNew] using hcan
      have hlen : (markRunning q' now task).runningAgents.length ≤
          maxAgents := by
        simp only [markRunning]
        rw [hq']
        have hm := length_mapSet s.queue.runningAgents task.issueId
          { task with status := .running, startedAt := some now }
        omega
      refine ⟨hlen, ?_⟩
      cases saveOk with
      | true =>
        show (getRunningTasks (markRunning q' now task)).length ≤ maxAgents
        simpa [getRunningTasks] using hlen
      | false => exact ih.2
    | finish issueId saveOk =>
      have hlen : (markComplete s.queue issueId).runningAgents.length ≤
          maxAgents := by
        refine le_trans ?_ ih.1
        unfold markComplete mapDelete
        simpa using List.length_filter_le _ _
      refine ⟨hlen, ?_⟩
      cases saveOk with
      | true =>
        show (getRunningTasks (markComplete s.queue issueId)).length ≤
          maxAgents
        simpa [getRunningTasks] using hlen
      | false => exact ih.2
    | crashRestore =>
      refine ⟨?_, ih.2⟩
      show (restoreRunningTasks emptyQueue s.stateFile).runningAgents.length
        ≤ maxAgents
      unfold restoreRunningTasks
      refine le_trans (length_foldl_mapSet s.stateFile _) ?_
      have hsf := ih.2
      simp only [emptyQueue, List.length_nil]
      omega
    | crashEmpty =>
      exact ⟨by simp [emptyQueue], ih.2⟩

/-- C5: in every reachable state of the system — including states reached
through crash-recovery restoration of the persisted snapshot — the running
map holds at most `maxConcurrentAgents` tasks.  The configuration is fixed
for the lifetime of the system, restarts included; the snapshot restored
as-is is itself one the system persisted, and the inductive invariant
keeps it within the bound too. -/
theorem running_bounded (maxAgents : Nat) (s : SysState)
    (h : SysReachable maxAgents s) :
    s.queue.runningAgents.length ≤ maxAgents :=
  (sysInv maxAgents s h).1

/-- Spot check of C5 on a concrete three-step trace (boot, admit,
dispatch) under the default bound of one concurrent agent. -/
theorem running_bounded_witness :
    (SysState.mk
      (markRunning ⟨[], []⟩ "t1"
        ⟨"a", "A-1", "r", "w", .queued, none, "t", .linear⟩)
      (getRunningTasks (markRunning ⟨[], []⟩ "t1"
        ⟨"a", "A-1", "r", "w", .queued, none, "t",
          .linear⟩))).queue.runningAgents.length ≤ 1 :=
  running_bounded 1 _
    (SysReachable.step _ _
      (SysReachable.step _ _ SysReachable.init
        (SysStep.admitTask ⟨emptyQueue, []⟩ "t0"
          ⟨"a", "A-1", "r", "w", .queued, none, "t", .linear⟩))
      (SysStep.dispatch
        ⟨addTask emptyQueue ("t0")
          ⟨"a", "A-1", "r", "w", .queued, none, "t", .linear⟩, []⟩
        "t1" ⟨"a", "A-1", "r", "w", .queued, none, "t", .linear⟩
        ⟨[], []⟩ true (by decide) (by decide)))

/-- C3: on the failing input the claim does not hold.  The agent exits 0
without timeout and `hasChanges` is false, but the completion
`addComment` call throws; because the no-changes branch of `runAgent`
leaves that call unguarded, the exception reaches the outer catch: the
result flips to failure (carrying the comment error) and a failure comment
is posted, where the claim — matching the source's own comment `No changes
- still a success` and the spec's log-only rule — requires a success.  In
the has-changes branch the identical comment failure is caught and the
run stays successful. -/
theorem noChanges_comment_failure_flips_outcome :
    (runAgent cEnvNoChangesCommentFail cTaskRun).1.success = false
    ∧ (runAgent cEnvNoChangesCommentFail cTaskRun).1.error =
        some ("addComment: 500")
    ∧ (runAgent cEnvNoChangesCommentFail cTaskRun).2 =
        [.statusInProgress, .startComment, .failureComment]
    ∧ (runAgent cEnvChangesCommentFail cTaskRun).1.success = true := by
  refine ⟨?_, ?_, ?_, ?_⟩ <;> rfl

/-- C6: a timed-out child yields a failure whose message states the
minute budget `agentTimeout / 60000`, the issue status is never
transitioned to review, and the failure comment is posted whenever the
provider accepts it.  (The kill of the child is part of the same timeout
callback that sets `timedOut` and is represented by that flag; the JS
float division renders like the natural division exactly when 60000
divides the budget, as it does at the default.) -/
theorem agent_timeout_failure (env : RunEnv) (task : AgentTask)
    (issue : Issue) (hIssue : env.issue = some issue)
    (hWt : env.createWorktreeR = .ok ())
    (hTo : env.claude.timedOut = true)
    (hDiv : 60000 ∣ env.agentTimeout) :
    (runAgent env task).1 =
      failResult ("Agent timed out after (" ++
        toString (env.agentTimeout / 60000) ++ ") minutes")
    ∧ ProviderEffect.statusReview ∉ (runAgent env task).2
    ∧ (env.failureCommentR = .ok () →
        ProviderEffect.failureComment ∈ (runAgent env task).2) := by
  have hrun : runAgent env task =
      (failResult ("Agent timed out after (" ++
        toString (env.agentTimeout / 60000) ++ ") minutes"),
       preSpawnEffects env ++ handleFailureEffects env) := by
    simp only [runAgent, hIssue, hWt, hTo]
    rfl
  rw [hrun]
  refine ⟨rfl, ?_, ?_⟩
  · intro hmem
    rcases List.mem_append.mp hmem with hmem | hmem
    · unfold preSpawnEffects at hmem
      rcases List.mem_append.mp hmem with h1 | h1
      · cases henv : env.statusInProgressR <;> rw [henv] at h1 <;>
          simp_all
      · cases henv : env.startCommentR <;> rw [henv] at h1 <;> simp_all
    · unfold handleFailureEffects at hmem
      cases henv : env.failureCommentR <;> rw [henv] at hmem <;> simp_all
  · intro hfc
    apply List.mem_append.mpr
    right
    simp [handleFailureEffects, hfc]

/-- The fully admitting webhook request evaluated: the event is enqueued,
yet the handler does not signal the processor. -/
theorem cWebhookEnv_outcome :
    linearWebhookPost cWebhookEnv ("t0") emptyQueue =
      ⟨.enqueued ("ENG-7"), 200,
       ⟨[⟨⟨"iss-7", "ENG-7", "my-proj", "/wt/ENG-7", .queued, none,
           "Fix crash", .linear⟩, "t0"⟩], []⟩, false⟩ := by
  simp [linearWebhookPost, cWebhookEnv, linearValidateSignature,
    shouldProcessLinear, cLabelLookup, getRepository, getBranchName,
    addTask, isQueued, isRunning, mapHas, emptyQueue, cSecret, cRawBody]

/-- C4 (counterexample): an admitted webhook event on the Linear webhook
endpoint inserts the task but returns without invoking the processor's
trigger operation — refuting the claim that every admitted event on either
admission endpoint signals the processor before the response. -/
theorem webhook_admission_no_trigger :
    (linearWebhookPost cWebhookEnv ("t0") emptyQueue).resp =
      WebhookResp.enqueued ("ENG-7")
    ∧ (linearWebhookPost cWebhookEnv ("t0")
        emptyQueue).queueAfter.pendingQueue.length = 1
    ∧ (linearWebhookPost cWebhookEnv ("t0") emptyQueue).triggered = false := by
  rw [cWebhookEnv_outcome]
  exact ⟨rfl, rfl, rfl⟩

/-- C4 (amended): after insertion, only the retry endpoint signals the
processor before returning its response; the webhook handler returns
without signalling, leaving dispatch of webhook-admitted tasks to the
processor's 1-second polling tick. -/
theorem admission_signals_processor_amended :
    (∀ (env : RetryEnv) (issueId : String) (pp : Option IssueProvider)
        (now : String) (q : QueueState),
      (retryPost env issueId pp now q).triggered =
        isQueuedOkResp (retryPost env issueId pp now q).resp)
    ∧ (∀ (env : LinearWebhookEnv) (now : String) (q : QueueState),
      (linearWebhookPost env now q).triggered = false) := by
  constructor
  · intro env issueId pp now q
    unfold retryPost
    dsimp only
    repeat' split
    all_goals rfl
  · intro env now q
    unfold linearWebhookPost
    dsimp only
    repeat' split
    all_goals rfl

/-- C10: a retry request without a provider query parameter behaves
exactly as one naming `linear`, and when Linear is not configured it is
rejected with 400 as unconfigured (queue untouched, no processor signal)
even if GitHub is configured; when the Linear path proceeds, the client
handed to the pipeline is the Linear one. -/
theorem retry_default_provider :
    (∀ (env : RetryEnv) (issueId now : String) (q : QueueState),
      retryPost env issueId none now q =
        retryPost env issueId (some .linear) now q)
    ∧ (∀ (env : RetryEnv) (issueId now : String) (q : QueueState),
      env.linearConfigured = false →
      retryPost env issueId none now q =
        ⟨.providerNotConfigured, 400, q, false, none⟩)
    ∧ (∀ (env : RetryEnv) (issueId now : String) (q : QueueState),
      env.linearConfigured = true →
      isQueued q issueId = false → isRunning q issueId = false →
      (retryPost env issueId none now q).clientProvider =
        some IssueProvider.linear) := by
  refine ⟨?_, ?_, ?_⟩
  · intro env issueId now q
    rfl
  · intro env issueId now q h
    simp [retryPost, isProviderConfiguredFlag, h]
  · intro env issueId now q hc hq hr
    simp only [retryPost, isProviderConfiguredFlag, Option.getD_none,
      hc, hq, hr, Bool.not_true, Bool.false_eq_true, if_false]
    cases hi : env.getIssueR with
    | none => rfl
    | some issue =>
      cases hrep : issue.repository with
      | none => simp [getRepository, hrep]
      | some repo => simp [getRepository, hrep]

/-- Spot check of C10 with only GitHub configured: the bare retry equals
the explicit-linear retry and is rejected 400; with Linear configured the
Linear client is the one used. -/
theorem retry_default_provider_witness :
    retryPost cRetryEnvGhOnly ("iss-7") none ("t") emptyQueue =
      retryPost cRetryEnvGhOnly ("iss-7") (some .linear) "t" emptyQueue
    ∧ retryPost cRetryEnvGhOnly ("iss-7") none ("t") emptyQueue =
      ⟨.providerNotConfigured, 400, emptyQueue, false, none⟩
    ∧ (retryPost cRetryEnv ("iss-7") none ("t") emptyQueue).clientProvider =
      some IssueProvider.linear :=
  ⟨retry_default_provider.1 cRetryEnvGhOnly ("iss-7") "t" emptyQueue,
   retry_default_provider.2.1 cRetryEnvGhOnly ("iss-7") "t" emptyQueue rfl,
   retry_default_provider.2.2 cRetryEnv ("iss-7") "t" emptyQueue rfl rfl rfl⟩

/-- Spot check of C6 at the default configuration: the message names the
30-minute budget, no review transition happens, the failure comment is
posted. -/
theorem agent_timeout_failure_witness :
    (runAgent cEnvTimedOut cTaskRun).1 =
      failResult ("Agent timed out after (" ++
        toString (1800000 / 60000) ++ ") minutes")
    ∧ ProviderEffect.statusReview ∉ (runAgent cEnvTimedOut cTaskRun).2
    ∧ ProviderEffect.failureComment ∈ (runAgent cEnvTimedOut cTaskRun).2 :=
  ⟨(agent_timeout_failure cEnvTimedOut cTaskRun cIssueRun rfl rfl rfl
      ⟨30, rfl⟩).1,
   (agent_timeout_failure cEnvTimedOut cTaskRun cIssueRun rfl rfl rfl
      ⟨30, rfl⟩).2.1,
   (agent_timeout_failure cEnvTimedOut cTaskRun cIssueRun rfl rfl rfl
      ⟨30, rfl⟩).2.2 rfl⟩

/-- Serializing and reading back one task is the identity. -/
theorem decodeTask_encodeTask (t : AgentTask) :
    decodeTask (encodeTask t) = some t := by
  rcases t with ⟨i, idf, r, w, st, sa, ti, pv⟩
  cases sa with
  | none => cases st <;> cases pv <;> rfl
  | some d => cases st <;> cases pv <;> rfl

/-- Serializing and reading back a task list is the identity. -/
theorem decodeTasks_map_encodeTask (ts : List AgentTask) :
    decodeTasks (ts.map encodeTask) = some ts := by
  induction ts with
  | nil => rfl
  | cons t rest ih =>
    simp [decodeTasks, decodeTask_encodeTask, ih]

/-- C8: the state store round-trips.  For every running-task list, saving
and then loading returns the original list (exact here because a date is
identified with its ISO serialization, which is what ("modulo the savedAt
timestamp and the startedAt serialization") allows); loading an absent or
unparseable state file returns the empty list. -/
theorem state_file_roundtrip :
    (∀ (ts : List AgentTask) (now : String),
      loadStateFile (saveStateFile ts now) = ts)
    ∧ loadStateFile .absent = []
    ∧ loadStateFile .unparseable = [] := by
  refine ⟨?_, rfl, rfl⟩
  intro ts now
  simp [saveStateFile, loadStateFile, encodeState, decodeTasks_map_encodeTask]

/-- C9: worktree creation policy.  An existing path is reused with no git
invocation; a failed first attempt whose stderr reports `already exists`
retries with the existing-branch command (no `-b`) and succeeds exactly
when that retry exits 0; any other non-zero exit of the first attempt is a
thrown error after the single invocation. -/
theorem createWorktree_reuse_and_retry :
    (∀ (env : WorktreeEnv) (repoPath worktreePath branchName : String),
      env.pathOnDisk = true →
      createWorktree env repoPath worktreePath branchName = (.ok (), []))
    ∧ (∀ (env : WorktreeEnv) (repoPath worktreePath branchName : String),
      env.pathOnDisk = false →
      env.firstAttempt.exitCode ≠ 0 →
      strContains env.firstAttempt.stderr ("already exists") = true →
      (createWorktree env repoPath worktreePath branchName).2 =
        [(repoPath, ["git", "worktree", "add", worktreePath, "-b",
          branchName]),
         (repoPath, ["git", "worktree", "add", worktreePath, branchName])]
      ∧ ((createWorktree env repoPath worktreePath branchName).1 = .ok ()
          ↔ env.retryAttempt.exitCode = 0))
    ∧ (∀ (env : WorktreeEnv) (repoPath worktreePath branchName : String),
      env.pathOnDisk = false →
      env.firstAttempt.exitCode ≠ 0 →
      strContains env.firstAttempt.stderr ("already exists") = false →
      createWorktree env repoPath worktreePath branchName =
        (.error ("Failed to create worktree: " ++
          orElseNonEmpty env.firstAttempt.stderr env.firstAttempt.stdout),
         [(repoPath, ["git", "worktree", "add", worktreePath, "-b",
           branchName])])) := by
  refine ⟨?_, ?_, ?_⟩
  · intro env repoPath worktreePath branchName hdisk
    simp [createWorktree, hdisk]
  · intro env repoPath worktreePath branchName hdisk h1 h2
    have h1b : (env.firstAttempt.exitCode != 0) = true := by
      simpa using h1
    cases hrc : env.retryAttempt.exitCode with
    | zero =>
      constructor
      · simp [createWorktree, hdisk, h1b, h2, hrc]
      · simp [createWorktree, hdisk, h1b, h2, hrc]
    | succ n =>
      constructor
      · simp [createWorktree, hdisk, h1b, h2, hrc]
      · simp [createWorktree, hdisk, h1b, h2, hrc]
  · intro env repoPath worktreePath branchName hdisk h1 h2
    have h1b : (env.firstAttempt.exitCode != 0) = true := by
      simpa using h1
    simp [createWorktree, hdisk, h1b, h2]

/-- Spot check of C9: an on-disk path short-circuits; a first attempt
failing with `already exists` retries without `-b` and succeeds when the
retry exits 0. -/
theorem createWorktree_reuse_and_retry_witness :
    createWorktree ⟨true, ⟨1, "", "boom"⟩, ⟨1, "", "boom"⟩⟩ "/r" "/w" "b"
      = (.ok (), [])
    ∧ (createWorktree
        ⟨false, ⟨128, "", "fatal: a branch named b already exists"⟩,
         ⟨0, "", ""⟩⟩ "/r" "/w" "b").2 =
        [("/r", ["git", "worktree", "add", "/w", "-b", "b"]),
         ("/r", ["git", "worktree", "add", "/w", "b"])]
    ∧ ((createWorktree
        ⟨false, ⟨128, "", "fatal: a branch named b already exists"⟩,
         ⟨0, "", ""⟩⟩ "/r" "/w" "b").1 = .ok ()
        ↔ (⟨false, ⟨128, "", "fatal: a branch named b already exists"⟩,
            ⟨0, "", ""⟩⟩ : WorktreeEnv).retryAttempt.exitCode = 0) :=
  ⟨createWorktree_reuse_and_retry.1 _ ("/r") "/w" "b" rfl,
   (createWorktree_reuse_and_retry.2.1 _ ("/r") "/w" "b" rfl (by decide)
      (by decide)).1,
   (createWorktree_reuse_and_retry.2.1 _ ("/r") "/w" "b" rfl (by decide)
      (by decide)).2⟩

end IssueAgent
